import Mathlib

/-!
# Vibe Security Watchdog — shallow embedding and verification

This file embeds the scan-orchestration core of the `vibe-sec` repository in
Lean 4 and proves (or refutes) the frozen claims about it.

Embedding conventions:
* Pure functions of the TypeScript source become Lean functions with the same
  names and the same control flow.
* All effectful inputs (file contents found by globbing, the `.gitignore`
  file, network responses of the RLS authority, the wall clock `Date.now()`)
  are passed explicitly as values.
* JavaScript regular-expression evaluation is NOT re-implemented.  Wherever a
  scanner compiles a regex and calls `.test` / `.exec`, the embedding takes
  the compiled matcher as an explicit function field (an oracle); concrete
  instances used in witnesses and counterexamples state exactly what the real
  regexes return on the concrete strings involved (hand-checked against
  ECMAScript regex semantics).
* String primitives (`trim`, `split`, `includes`, ...) are re-implemented by
  structural recursion on `List Char` so that concrete scans evaluate inside
  the kernel.
* Long user-facing message strings (Turkish text, emoji) are abbreviated to
  short ASCII literals; their structure (which pieces are joined, which are
  conditional) is kept.
* Numbers are `Nat`; no overflow is relevant anywhere in the source.
-/

namespace VibeSec

/-! ## Data model (`src/security-watchdog/types.ts`) -/

/-- `Severity = 'critical' | 'warning' | 'info'`. -/
inductive Severity where
  | critical
  | warning
  | info
deriving DecidableEq, Repr

/-- `IssueCategory` — the union of the categories appearing in the sources:
`secret-leak`, `rls-missing`, `rls-no-auth`, `rls-check`, `general`
(types.ts lists four; the direct-db RLS variant additionally uses
`rls-check`). -/
inductive IssueCategory where
  | secretLeak
  | rlsMissing
  | rlsNoAuth
  | rlsCheck
  | general
deriving DecidableEq, Repr

/-- `SecurityIssue` (types.ts).  Optional fields become `Option`. -/
structure SecurityIssue where
  id : String
  category : IssueCategory
  severity : Severity
  title : String
  message : String
  file : Option String := none
  line : Option Nat := none
  key : Option String := none
  table : Option String := none
  timestamp : Nat := 0
deriving DecidableEq, Repr

/-- `ScanResult` (types.ts). -/
structure ScanResult where
  issues : List SecurityIssue
  scannedAt : Nat
  duration : Nat
deriving DecidableEq, Repr

/-! ## String helpers

JavaScript string primitives, implemented by structural recursion over the
character list of the string. -/

/-- The single-quote character (ASCII 39). -/
def squote : Char := Char.ofNat 39

/-- Whitespace test used for `\s` / `trim` (ASCII fragment; the source never
meets non-ASCII whitespace). -/
def wsp (c : Char) : Bool := c.isWhitespace

/-- JavaScript `s.trim()`. -/
def jsTrim (s : String) : String :=
  ⟨((s.toList.dropWhile wsp).reverse.dropWhile wsp).reverse⟩

/-- Split at every `'\n'`, consuming a `'\r'` that immediately precedes the
consumed `'\n'`; a `'\r'` not followed by `'\n'` stays. -/
def splitNL : List Char → List (List Char)
  | [] => [[]]
  | '\r' :: '\n' :: rest => [] :: splitNL rest
  | '\n' :: rest => [] :: splitNL rest
  | c :: rest =>
      match splitNL rest with
      | [] => [[c]]
      | l :: ls => (c :: l) :: ls

/-- JavaScript `content.split(/\r?\n/)`. -/
def splitLines (content : String) : List String :=
  (splitNL content.toList).map fun l => ⟨l⟩

/-- Is `needle` a contiguous sublist of the second argument? -/
def listInfix (needle : List Char) : List Char → Bool
  | [] => needle.isEmpty
  | h :: rest => needle.isPrefixOf (h :: rest) || listInfix needle rest

/-- JavaScript `haystack.includes(needle)` (substring containment). -/
def strIncludes (haystack needle : String) : Bool :=
  listInfix needle.toList haystack.toList

/-- JavaScript `s.startsWith(p)`. -/
def strStartsWith (s p : String) : Bool :=
  p.toList.isPrefixOf s.toList

/-- Drop the first `n` characters of a string. -/
def strDrop (s : String) (n : Nat) : String :=
  ⟨s.toList.drop n⟩

/-! ## Secret Scanner (`src/security-watchdog/scanners/secret-scanner.ts`) -/

/-- One `key=value` entry of a parsed environment-definition file. -/
structure EnvEntry where
  key : String
  value : String
  line : Nat
deriving DecidableEq, Repr

/-- `replace(/^export\s+/, '')` on an already trimmed line: the literal
`export` followed by at least one whitespace character is removed together
with the whole whitespace run (`\s+` is greedy). -/
def stripExport (s : String) : String :=
  match s.toList with
  | 'e' :: 'x' :: 'p' :: 'o' :: 'r' :: 't' :: c :: rest =>
      if wsp c then ⟨(c :: rest).dropWhile wsp⟩ else s
  | _ => s

/-- Split at the FIRST `'='` (JavaScript `indexOf('=')` together with the two
`substring` calls); `none` when the line has no `'='`. -/
def breakAtEq : List Char → Option (List Char × List Char)
  | [] => none
  | '=' :: rest => some ([], rest)
  | c :: rest =>
      match breakAtEq rest with
      | some (k, v) => some (c :: k, v)
      | none => none

/-- Is the character a double or single quote? -/
def isQuote (c : Char) : Bool := c = '"' || c = squote

/-- `value.replace(/^["⧵x27]|["⧵x27]$/g, '')`: one leading and one trailing
quote character are removed, independently. -/
def stripQuoteEdges (s : String) : String :=
  let l := s.toList
  let s1 := match l with
    | c :: rest => if isQuote c then rest else l
    | [] => []
  match s1.reverse with
  | c :: rest => if isQuote c then ⟨rest.reverse⟩ else ⟨s1⟩
  | [] => ⟨s1⟩

/-- The per-line body of `parseEnvFile` (secret-scanner.ts lines 24-40):
skip blank and `#` lines, strip `export`, split at the first `=`,
trim the key, trim and unquote the value; `line` is the 1-based index. -/
def parseEnvLine (idx : Nat) (rawLine : String) : Option EnvEntry :=
  if jsTrim rawLine = "" ∨ strStartsWith (jsTrim rawLine) "#" then none
  else
    match breakAtEq (stripExport (jsTrim rawLine)).toList with
    | none => none
    | some (k, v) =>
        some { key := jsTrim ⟨k⟩
               value := stripQuoteEdges (jsTrim ⟨v⟩)
               line := idx + 1 }

/-- Walk the lines of a file, keeping the running 0-based index. -/
def parseEnvLines : Nat → List String → List EnvEntry
  | _, [] => []
  | idx, l :: rest =>
      match parseEnvLine idx l with
      | some e => e :: parseEnvLines (idx + 1) rest
      | none => parseEnvLines (idx + 1) rest

/-- `parseEnvFile` (secret-scanner.ts), acting on the file's content.
The unreadable-file branch (`catch`) corresponds to the file not being in
the scanned list at all. -/
def parseEnvFile (content : String) : List EnvEntry :=
  parseEnvLines 0 (splitLines content)

/-- A sensitive-name rule (`SensitivePattern` in types.ts).  `test` is the
compiled case-insensitive regex `new RegExp(pattern, 'i').test`, taken as an
oracle. -/
structure SensitivePattern where
  pattern : String
  test : String → Bool
  severity : Severity
  message : String

/-- `matchesSensitivePattern` (secret-scanner.ts lines 53-72): keys without
the `NEXT_PUBLIC_` marker never match; otherwise the first rule whose regex
accepts the original key or the marker-stripped key is returned. -/
def matchesSensitivePattern (key : String) (patterns : List SensitivePattern) :
    Option SensitivePattern :=
  if ¬ strStartsWith key "NEXT_PUBLIC_" then none
  else
    let strippedKey := strDrop key 12
    patterns.find? fun p => p.test key || p.test strippedKey

/-- A scanned environment-definition file: its path relative to the project
root, and its content.  This is the result of the glob over
`config.envFiles` (after `new Set` deduplication). -/
structure EnvFile where
  path : String
  content : String
deriving DecidableEq, Repr

/-- Does any entry of any scanned file use the given key?
(The `allEntries` map of `scanSecrets`, queried by `checkForDuplicateKey`.) -/
def anyEntryWithKey (files : List EnvFile) (key : String) : Bool :=
  files.any fun f => (parseEnvFile f.content).any fun e => e.key = key

/-- `checkForDuplicateKey` (secret-scanner.ts lines 78-91): note text when
the marker-stripped key is also defined somewhere. -/
def checkForDuplicateKey (key : String) (files : List EnvFile) : Option String :=
  let strippedKey := if strStartsWith key "NEXT_PUBLIC_" then strDrop key 12 else key
  if anyEntryWithKey files strippedKey then
    some ("duplicate key note: " ++ strippedKey)
  else none

/-- The issue built for one matching entry (secret-scanner.ts lines 153-188).
Message text abbreviated; its conditional pieces are kept. -/
def secretIssueFor (files : List EnvFile) (relativeFile : String)
    (e : EnvEntry) (m : SensitivePattern) (now : Nat) : SecurityIssue :=
  let valueWarning :=
    if e.value.length > 0 then "value assigned, will be bundled" else "value empty"
  let duplicateNote := checkForDuplicateKey e.key files
  { id := "secret-" ++ relativeFile ++ "-" ++ e.key ++ "-" ++ toString e.line
    category := .secretLeak
    severity := m.severity
    title := "exposed: " ++ e.key
    message := String.intercalate "\n"
      ([m.message, valueWarning] ++
        match duplicateNote with
        | some n => [n]
        | none => [])
    file := some relativeFile
    line := some e.line
    key := some e.key
    timestamp := now }

/-- One entry of the per-entry loop body of `scanSecrets` (lines 150-189):
an issue exactly when `matchesSensitivePattern` finds a rule. -/
def entryIssue (files : List EnvFile) (relativeFile : String)
    (patterns : List SensitivePattern) (now : Nat) (e : EnvEntry) :
    Option SecurityIssue :=
  match matchesSensitivePattern e.key patterns with
  | some m => some (secretIssueFor files relativeFile e m now)
  | none => none

/-- The `.gitignore` check of `scanSecrets` (lines 192-222): only an existing
`.gitignore` that contains neither `.env*.local` nor `.env.local` nor `.env`
produces the warning. -/
def gitignoreIssues (gitignore : Option String) : List SecurityIssue :=
  match gitignore with
  | none => []
  | some content =>
      if ¬ (strIncludes content ".env*.local" || strIncludes content ".env.local") ∧
         ¬ strIncludes content ".env" then
        [{ id := "gitignore-env-missing"
           category := .general
           severity := .warning
           title := "env files not gitignored"
           message := "add .env lines to .gitignore"
           file := some ".gitignore" }]
      else []

/-- `scanSecrets` (secret-scanner.ts lines 97-229).  `files` is the deduped
glob result together with the files' contents; `gitignore` is the content of
the project `.gitignore` when it exists.  When no env file matched, the
function returns before the `.gitignore` check (lines 120-126). -/
def scanSecretsIssues (files : List EnvFile) (gitignore : Option String)
    (patterns : List SensitivePattern) (now : Nat) : List SecurityIssue :=
  if files.isEmpty then []
  else
    (files.flatMap fun f =>
      (parseEnvFile f.content).filterMap (entryIssue files f.path patterns now))
    ++ gitignoreIssues gitignore

/-- `scanSecrets` wrapped as a `ScanResult`. -/
def scanSecrets (files : List EnvFile) (gitignore : Option String)
    (patterns : List SensitivePattern) (now : Nat) : ScanResult :=
  { issues := scanSecretsIssues files gitignore patterns now
    scannedAt := now
    duration := 0 }

/-! ## RLS Scanner, HTTP-authority variant (second module of `unnamed/part_001`) -/

/-- The value `checkRLSStatus` / `checkRLSViaDirectQuery` resolve with. -/
structure RLSStatus where
  rlsEnabled : Bool
  hasAuthPolicy : Bool
  error : Option String := none
deriving DecidableEq, Repr

/-- Outcome of the fallback `exec_sql` fetch in `checkRLSViaDirectQuery`
(part_001 lines 332-393), per table. -/
inductive FallbackResponse where
  /-- `response.ok`, JSON array with a first row (`??`-defaults applied). -/
  | ok (rlsEnabled hasAuthPolicy : Bool)
  /-- `response.ok` but the JSON is not a non-empty array. -/
  | okEmpty
  /-- `!response.ok` — the RPC helpers are absent. -/
  | notOk
  /-- the fetch itself threw. -/
  | netError (msg : String)
deriving DecidableEq, Repr

/-- Outcome of the primary `check_rls_status` fetch in `checkRLSStatus`
(part_001 lines 296-326), per table. -/
inductive AuthorityResponse where
  /-- `response.ok`, JSON fields (`??`-defaults applied). -/
  | ok (rlsEnabled hasAuthPolicy : Bool)
  /-- `!response.ok` — fall back to the direct query. -/
  | fallback (r : FallbackResponse)
  /-- the fetch itself threw. -/
  | netError (msg : String)
deriving DecidableEq, Repr

/-- The external RLS authority: its response for each table name. -/
abbrev Authority := String → AuthorityResponse

/-- `checkRLSViaDirectQuery` (part_001 lines 332-393). -/
def checkRLSViaDirectQuery (r : FallbackResponse) (tableName : String) : RLSStatus :=
  match r with
  | .ok rlsEnabled hasAuthPolicy => { rlsEnabled, hasAuthPolicy }
  | .okEmpty =>
      { rlsEnabled := false, hasAuthPolicy := false
        error := some ("table " ++ tableName ++ " not found or unreachable") }
  | .notOk =>
      { rlsEnabled := false, hasAuthPolicy := false
        error := some ("Supabase RPC helpers absent, manual check for " ++ tableName) }
  | .netError msg =>
      { rlsEnabled := false, hasAuthPolicy := false
        error := some ("direct SQL check failed: " ++ msg) }

/-- `checkRLSStatus` (part_001 lines 283-327): with missing connection info
it resolves immediately with an error status; otherwise the authority
response decides, falling back to the direct query on a non-ok response.
Every branch resolves — the function never rejects. -/
def checkRLSStatus (authority : Authority) (tableName supabaseUrl serviceRoleKey : String) :
    RLSStatus :=
  if supabaseUrl = "" ∨ serviceRoleKey = "" then
    { rlsEnabled := false, hasAuthPolicy := false
      error := some "Supabase connection info missing" }
  else
    match authority tableName with
    | .ok rlsEnabled hasAuthPolicy => { rlsEnabled, hasAuthPolicy }
    | .fallback r => checkRLSViaDirectQuery r tableName
    | .netError msg =>
        { rlsEnabled := false, hasAuthPolicy := false
          error := some ("RLS status check failed: " ++ msg) }

/-- `RLSScannerConfig` (types.ts).  The glob fields are carried as data; the
embedding receives the globbed source files directly. -/
structure RLSScannerConfig where
  enabled : Bool
  scanDirs : List String
  extensions : List String
  excludeDirs : List String
  supabaseUrl : String
  supabaseServiceRoleKey : String
  whitelistedTables : List String

/-- One `supabase.from('...')` call site. -/
structure TableUsage where
  file : String
  line : Nat
  context : String
deriving DecidableEq, Repr

/-- A globbed source file: project-relative path, content, and — for the RLS
scanner — the table names captured by `SUPABASE_FROM_REGEX` on each line, in
match order (the `.from('name')` regex evaluation, taken as an oracle). -/
structure SourceFile where
  path : String
  content : String
  fromTables : List String → List (List String) := fun ls => ls.map fun _ => []

/-- The tables the regex captures on each line of a file.  For fidelity the
oracle receives exactly the split lines of the content. -/
def fileFromCalls (f : SourceFile) : List (List String) :=
  f.fromTables (splitLines f.content)

/-- One result of `findSupabaseQueries`: captured table name, 1-based line,
trimmed line as context. -/
structure FromCall where
  table : String
  line : Nat
  context : String
deriving DecidableEq, Repr

/-- `findSupabaseQueries` (part_001 lines 251-277): every captured table of
every line, tagged with the 1-based line and the trimmed line as context. -/
def findSupabaseQueries (f : SourceFile) : List FromCall :=
  ((splitLines f.content).zip (fileFromCalls f)).enum.flatMap fun p =>
    p.2.2.map fun t => { table := t, line := p.1 + 1, context := jsTrim p.2.1 }

/-- Insertion-ordered multimap update (JS `Map`): append the usage to the
existing bucket, or append a new bucket at the end. -/
def addUsage (m : List (String × List TableUsage)) (t : String) (u : TableUsage) :
    List (String × List TableUsage) :=
  match m with
  | [] => [(t, [u])]
  | (t', us) :: rest =>
      if t' = t then (t', us ++ [u]) :: rest
      else (t', us) :: addUsage rest t u

/-- The `tableUsages` map of `scanRLS` (part_001 lines 429-443): all
`.from` captures of all files, grouped by table, first-seen order. -/
def tableUsagesOf (files : List SourceFile) : List (String × List TableUsage) :=
  files.foldl
    (fun m f => (findSupabaseQueries f).foldl
      (fun m' q =>
        addUsage m' q.table { file := f.path, line := q.line, context := q.context }) m)
    []

/-- The per-table loop body of `scanRLS` (part_001 lines 452-522), for one
table: skip whitelisted tables; otherwise query the authority and emit the
critical `rls-disabled` issue when RLS is off, and the warning
`rls-no-auth` issue when RLS is on with no identity policy and no error. -/
def rlsTableIssues (authority : Authority) (config : RLSScannerConfig) (now : Nat)
    (tableName : String) (usages : List TableUsage) : List SecurityIssue :=
  if config.whitelistedTables.contains tableName then []
  else
    let rlsStatus := checkRLSStatus authority tableName
      config.supabaseUrl config.supabaseServiceRoleKey
    let usageLocations := String.intercalate "\n"
      (usages.map fun u => u.file ++ ":" ++ toString u.line ++ " " ++ u.context)
    let disabledIssue : List SecurityIssue :=
      if ¬ rlsStatus.rlsEnabled then
        [{ id := "rls-disabled-" ++ tableName
           category := .rlsMissing
           severity := .critical
           title := "RLS disabled on " ++ tableName
           message := String.intercalate "\n"
             (["RLS is not enabled", usageLocations] ++
               (match rlsStatus.error with
                | some e => [e]
                | none => []) ++
               ["enable row level security"])
           table := some tableName
           timestamp := now }]
      else []
    let noAuthIssue : List SecurityIssue :=
      if rlsStatus.rlsEnabled ∧ ¬ rlsStatus.hasAuthPolicy ∧ rlsStatus.error = none then
        [{ id := "rls-no-auth-" ++ tableName
           category := .rlsNoAuth
           severity := .warning
           title := "no auth.uid() policy on " ++ tableName
           message := String.intercalate "\n"
             ["RLS enabled but no auth.uid() policy", usageLocations]
           table := some tableName
           timestamp := now }]
      else []
    disabledIssue ++ noAuthIssue

/-- `scanRLS` (part_001 lines 400-529): disabled config or no table usages
yield the empty result; otherwise one pass over the usage map.  (The
`checkedTables` set of the source never skips anything because the map keys
are already unique; the embedding walks the unique keys directly.) -/
def scanRLS (authority : Authority) (config : RLSScannerConfig)
    (files : List SourceFile) (now : Nat) : ScanResult :=
  if ¬ config.enabled then { issues := [], scannedAt := now, duration := 0 }
  else if (tableUsagesOf files).isEmpty then
    { issues := [], scannedAt := now, duration := 0 }
  else
    { issues := (tableUsagesOf files).flatMap fun p =>
        rlsTableIssues authority config now p.1 p.2
      scannedAt := now
      duration := 0 }

/-! ## RLS Scanner, direct-db variant (`unnamed/part_003`) -/

/-- One row of the `pg_class` introspection query: table name, RLS flag,
policy count. -/
structure DBRow where
  tableName : String
  rlsEnabled : Bool
  policyCount : Nat
deriving DecidableEq, Repr

/-- The live database of the direct-db variant: either the rows the
introspection query returns, or a connection/query error message. -/
inductive DirectDB where
  | rows (rs : List DBRow)
  | connError (msg : String)
deriving DecidableEq, Repr

/-- Issues without ids, as produced by `unnamed/part_003` (its objects carry
no `id` / `timestamp`); reuse `SecurityIssue` with the defaults. -/
def directIssue (severity : Severity) (category : IssueCategory)
    (title message file : String) (table : Option String := none) : SecurityIssue :=
  { id := "", severity, category, title, message, file := some file, table }

/-- `scanRLS` of the direct-db variant (part_003 lines 3-103): a missing URL
yields one warning; a connection error yields one critical issue; otherwise
one issue per non-whitelisted row — critical when RLS is off, warning when
RLS is on with zero policies, info otherwise.  Whitelisted rows still enter
`filteredTables` but produce no issue. -/
def scanRLSDirect (databaseUrl : String) (whitelisted : List String)
    (db : DirectDB) : List SecurityIssue × List (String × List TableUsage) :=
  if databaseUrl = "" then
    ([directIssue .warning .rlsCheck "database URL missing"
        "DATABASE_URL required for the RLS scan" ".env.local"], [])
  else
    match db with
    | .connError msg =>
        ([directIssue .critical .rlsCheck ("db connection error: " ++ msg)
            "could not connect for the RLS scan" ".env.local"], [])
    | .rows rs =>
        let filteredTables := rs.map fun r =>
          (r.tableName, [({ file := "database -> public", line := 1, context := "" } : TableUsage)])
        let issues := rs.flatMap fun r =>
          if whitelisted.contains r.tableName then []
          else if ¬ r.rlsEnabled then
            [directIssue .critical .rlsCheck ("RLS off: " ++ r.tableName)
              "RLS not enabled on this table" "(direct db)" (some r.tableName)]
          else if r.policyCount = 0 then
            [directIssue .warning .rlsCheck ("RLS on, no policy: " ++ r.tableName)
              "RLS enabled but no policy defined" "(direct db)" (some r.tableName)]
          else
            [directIssue .info .rlsCheck ("RLS on: " ++ r.tableName)
              "standard check passed" "(direct db)" (some r.tableName)]
        (issues, filteredTables)

/-! ## SQL Injection Scanner (first module of `unnamed/part_001`) -/

/-- One anti-pattern of `SQL_INJECTION_PATTERNS`, with the two views of its
regex taken as oracles: `lineTest` is `new RegExp(source, flags).test(line)`
on a single line, `fullMatchIndices` the successive `match.index` values of
`exec` with the `g` flag over the whole content. -/
structure SQLPattern where
  id : String
  lineTest : String → Bool
  fullMatchIndices : String → List Nat

/-- The ids of the six entries of `SQL_INJECTION_PATTERNS`
(part_001 lines 17-100). -/
def sqlInjectionPatternIds : List String :=
  ["rpc-template-literal", "rpc-string-concat", "raw-sql-template-literal",
   "raw-sql-string-concat", "filter-template-literal", "search-template-literal"]

/-- The regexes of the six anti-patterns, abstracted: the behaviour of each
pattern's regex keyed by pattern id. -/
structure RegexOracle where
  lineTest : String → String → Bool
  fullMatchIndices : String → String → List Nat

/-- The `SQL_INJECTION_PATTERNS` table over an oracle. -/
def sqlInjectionPatterns (o : RegexOracle) : List SQLPattern :=
  sqlInjectionPatternIds.map fun pid =>
    { id := pid, lineTest := o.lineTest pid, fullMatchIndices := o.fullMatchIndices pid }

/-- `beforeMatch.split('\n').length` (part_001 lines 158-159): the 1-based
line on which the character at `idx` sits. -/
def lineNumberAt (content : String) (idx : Nat) : Nat :=
  ((content.toList.take idx).count '\n') + 1

/-- Issue id of the per-line pass (part_001 line 123). -/
def perLineId (pid rel : String) (n : Nat) : String :=
  "sqli-" ++ pid ++ "-" ++ rel ++ "-" ++ toString n

/-- Issue id of the whole-file pass (part_001 line 160). -/
def multiId (pid rel : String) (n : Nat) : String :=
  "sqli-multi-" ++ pid ++ "-" ++ rel ++ "-" ++ toString n

/-- The issue pushed by either pass of `scanFileForSQLInjection`. -/
def sqliIssue (theId title rel : String) (n now : Nat) : SecurityIssue :=
  { id := theId
    category := .general
    severity := .critical
    title := "SQL injection risk: " ++ title
    message := rel ++ ":" ++ toString n
    file := some rel
    line := some n
    timestamp := now }

/-- Inner step of the per-line pass (part_001 lines 120-147): on a regex hit,
push one issue unless its id is already present. -/
def linePassPattern (rel : String) (now n : Nat) (lineContent : String)
    (acc : List SecurityIssue) (p : SQLPattern) : List SecurityIssue :=
  if p.lineTest lineContent then
    if acc.any fun i => i.id = perLineId p.id rel n then acc
    else acc ++ [sqliIssue (perLineId p.id rel n) p.id rel n now]
  else acc

/-- The per-line pass (part_001 lines 117-148): every line against every
pattern, in order. -/
def linePass (patterns : List SQLPattern) (rel : String) (now : Nat)
    (lines : List String) : List SecurityIssue :=
  lines.enum.foldl
    (fun acc p => patterns.foldl (linePassPattern rel now (p.1 + 1) p.2) acc) []

/-- The whole-file pass for one pattern (part_001 lines 151-182): for every
full-content match, push an issue unless its id is already present OR any
already-pushed issue sits at the same (file, line). -/
def multiPassPattern (rel content : String) (now : Nat)
    (acc : List SecurityIssue) (p : SQLPattern) : List SecurityIssue :=
  (p.fullMatchIndices content).foldl
    (fun acc' idx =>
      if ¬ (acc'.any fun i => i.id = multiId p.id rel (lineNumberAt content idx)) ∧
         ¬ (acc'.any fun i =>
              i.file = some rel ∧ i.line = some (lineNumberAt content idx)) then
        acc' ++ [sqliIssue (multiId p.id rel (lineNumberAt content idx)) p.id rel
          (lineNumberAt content idx) now]
      else acc')
    acc

/-- `scanFileForSQLInjection` (part_001 lines 105-188): the per-line pass,
then the whole-file pass over its accumulated list. -/
def scanFileForSQLInjection (patterns : List SQLPattern) (rel content : String)
    (now : Nat) : List SecurityIssue :=
  patterns.foldl (multiPassPattern rel content now)
    (linePass patterns rel now (splitLines content))

/-- `scanSQLInjection` (part_001 lines 193-225) over the globbed files
(project-relative path and content): the concatenation of the per-file
results. -/
def scanSQLInjection (patterns : List SQLPattern) (files : List (String × String))
    (now : Nat) : ScanResult :=
  { issues := files.flatMap fun f => scanFileForSQLInjection patterns f.1 f.2 now
    scannedAt := now
    duration := 0 }

/-! ## Configuration (`src/security-watchdog/index.ts` lines 27-86) -/

/-- `SecretScannerConfig` (types.ts). -/
structure SecretScannerConfig where
  envFiles : List String
  sensitivePatterns : List SensitivePattern

/-- `ReporterConfig` (types.ts). -/
structure ReporterConfig where
  terminal : Bool
  browserOverlay : Bool
  overlayAutoCloseMs : Nat
  soundAlert : Bool

/-- `WatcherConfig` (types.ts). -/
structure WatcherConfig where
  debounceMs : Nat
  additionalWatchPatterns : List String

/-- `VibeSecurityConfig` (types.ts). -/
structure VibeSecurityConfig where
  enabled : Bool
  secretScanner : SecretScannerConfig
  rlsScanner : RLSScannerConfig
  reporter : ReporterConfig
  watcher : WatcherConfig

/-- `getDefaultConfig` (index.ts lines 54-86).  `compile p` is the oracle for
`new RegExp(p, 'i').test`. -/
def getDefaultConfig (compile : String → String → Bool) : VibeSecurityConfig :=
  { enabled := true
    secretScanner :=
      { envFiles := [".env", ".env.local", ".env.development"]
        sensitivePatterns :=
          [⟨"SUPABASE_SERVICE_ROLE_KEY", compile "SUPABASE_SERVICE_ROLE_KEY",
            .critical, "service role key must not be exposed"⟩,
           ⟨"DATABASE_URL", compile "DATABASE_URL", .critical,
            "database URL must not be exposed"⟩,
           ⟨"SECRET", compile "SECRET", .critical,
            "SECRET keys must not be exposed"⟩,
           ⟨"PRIVATE_KEY", compile "PRIVATE_KEY", .critical,
            "private keys must not be exposed"⟩] }
    rlsScanner :=
      { enabled := true
        scanDirs := ["src"]
        extensions := [".ts", ".tsx", ".js", ".jsx"]
        excludeDirs := ["node_modules", ".next", "dist"]
        supabaseUrl := ""
        supabaseServiceRoleKey := ""
        whitelistedTables := [] }
    reporter :=
      { terminal := true, browserOverlay := true
        overlayAutoCloseMs := 0, soundAlert := false }
    watcher := { debounceMs := 500, additionalWatchPatterns := [] } }

/-- The state of `vibe-security.config.js` at a load attempt. -/
inductive ConfigFileState where
  | missing
  | loaded (cfg : VibeSecurityConfig)
  | throws (msg : String)

/-- `loadConfig` (index.ts lines 27-49): a missing or throwing config file
falls back to the default configuration. -/
def loadConfig (compile : String → String → Bool) : ConfigFileState → VibeSecurityConfig
  | .missing => getDefaultConfig compile
  | .loaded cfg => cfg
  | .throws _ => getDefaultConfig compile

/-! ## Orchestrator (`src/security-watchdog/index.ts` lines 20-161)

The module-level mutable state is the pair (`latestIssues`, `isScanning`).
The four scanner invocations are the only suspension points that can reject;
each invocation's outcome (a `ScanResult`, or a thrown fault) is part of the
environment of one run. -/

/-- The orchestrator's module-level state (index.ts lines 21-22). -/
structure OrchestratorState where
  latestIssues : List SecurityIssue
  isScanning : Bool
deriving DecidableEq, Repr

/-- The environment of one `runFullScan` call: what each scanner invocation
would produce (`Except.error` = the promise rejects with a fault). -/
structure ScanEnv where
  secretResult : Except String ScanResult
  rlsResult : Except String ScanResult
  sqlResult : Except String ScanResult
  apiKeyResult : Except String ScanResult

/-- The observable outcome of one `runFullScan` call. -/
structure RunOutcome where
  returned : List SecurityIssue
  state : OrchestratorState
  scannersInvoked : List String
  loggedError : Option String
deriving DecidableEq, Repr

/-- Scanners 3 and 4 of the `try` block (index.ts lines 108-125):
accumulated issues so far, scanners invoked, and the first fault if any. -/
def sqlApiChain (env : ScanEnv) (acc : List SecurityIssue) (inv : List String) :
    List SecurityIssue × List String × Option String :=
  match env.sqlResult with
  | .error e => (acc, inv ++ ["sql-injection"], some e)
  | .ok r3 =>
      match env.apiKeyResult with
      | .error e => (acc ++ r3.issues, inv ++ ["sql-injection", "api-key"], some e)
      | .ok r4 => (acc ++ r3.issues ++ r4.issues,
                   inv ++ ["sql-injection", "api-key"], none)

/-- The whole `try` block of `runFullScan` (index.ts lines 97-139): scanners
run in the fixed order secret, RLS (only when enabled), SQL-injection,
API-key; a fault stops the chain with the issues pushed so far. -/
def scannerChain (env : ScanEnv) (cfg : VibeSecurityConfig) :
    List SecurityIssue × List String × Option String :=
  match env.secretResult with
  | .error e => ([], ["secret"], some e)
  | .ok r1 =>
      if cfg.rlsScanner.enabled then
        match env.rlsResult with
        | .error e => (r1.issues, ["secret", "rls"], some e)
        | .ok r2 => sqlApiChain env (r1.issues ++ r2.issues) ["secret", "rls"]
      else sqlApiChain env r1.issues ["secret"]

/-- `runFullScan` (index.ts lines 91-147).  A re-entrant call returns
`latestIssues` untouched.  Otherwise the scanner chain runs; on success
`latestIssues := allIssues` (line 139); on a fault the `catch` only logs, so
`latestIssues` keeps its previous value; `finally` clears `isScanning`; the
function returns `allIssues` either way (line 146).  The terminal report,
recipe printing and summary write are effect-free here. -/
def runFullScanO (env : ScanEnv) (cfg : VibeSecurityConfig)
    (s : OrchestratorState) : RunOutcome :=
  if s.isScanning then
    { returned := s.latestIssues, state := s, scannersInvoked := [], loggedError := none }
  else
    match scannerChain env cfg with
    | (allIssues, invoked, some e) =>
        { returned := allIssues
          state := { latestIssues := s.latestIssues, isScanning := false }
          scannersInvoked := invoked
          loggedError := some e }
    | (allIssues, invoked, none) =>
        { returned := allIssues
          state := { latestIssues := allIssues, isScanning := false }
          scannersInvoked := invoked
          loggedError := none }

/-- `getLatestIssues` (index.ts lines 152-154). -/
def getLatestIssues (s : OrchestratorState) : List SecurityIssue :=
  s.latestIssues

/-! ## Watch Scheduler (`src/security-watchdog/index.ts` lines 196-232)

`scheduleRescan` clears any pending debounce timer and arms a fresh one for
`config.watcher.debounceMs` (the config captured at `startWatchdog`); when a
timer fires, the callback loads a FRESH configuration and calls
`runFullScan` with it.  The simulation processes file-change events in time
order; a pending timer whose deadline is not later than the next event fires
first, and a timer pending when the event stream ends fires then. -/

/-- The environment of the watch loop: the state of the config file and the
scan environment as observed at each instant. -/
structure WatchEnv where
  compile : String → String → Bool
  configAt : Nat → ConfigFileState
  scanEnvAt : Nat → ScanEnv

/-- One debounce-timer firing (index.ts lines 222-226): reload the config,
then run the full scan with the fresh config. -/
def timerFire (we : WatchEnv) (d : Nat) (s : OrchestratorState) :
    (Nat × VibeSecurityConfig) × OrchestratorState :=
  let freshConfig := loadConfig we.compile (we.configAt d)
  ((d, freshConfig), (runFullScanO (we.scanEnvAt d) freshConfig s).state)

/-- The watch loop: `pending` is the armed debounce deadline, `events` the
ascending times of the remaining file-change events.  Returns every rescan
that fired — its time and the config it used — and the final orchestrator
state. -/
def watchLoop (debounceMs : Nat) (we : WatchEnv) :
    Option Nat → List Nat → OrchestratorState →
    List (Nat × VibeSecurityConfig) × OrchestratorState
  | some d, [], s =>
      let (fire, s') := timerFire we d s
      ([fire], s')
  | none, [], s => ([], s)
  | some d, t :: rest, s =>
      if d ≤ t then
        let (fire, s') := timerFire we d s
        let (fires, s'') := watchLoop debounceMs we (some (t + debounceMs)) rest s'
        (fire :: fires, s'')
      else
        watchLoop debounceMs we (some (t + debounceMs)) rest s
  | none, t :: rest, s =>
      watchLoop debounceMs we (some (t + debounceMs)) rest s

/-- A whole watch session starting idle. -/
def watchRun (debounceMs : Nat) (we : WatchEnv) (events : List Nat)
    (s : OrchestratorState) : List (Nat × VibeSecurityConfig) × OrchestratorState :=
  watchLoop debounceMs we none events s

/-! ## Standalone CLI (`src/security-watchdog.ts`)

The CLI carries its own scanner implementations; its issue objects have no
`id`/`timestamp` fields.  The claims touch only the aggregation tail of
`runScan` (lines 426-497): the four scanner phases' outputs are environment
here, the `.gitignore` check and the exit decision are embedded. -/

/-- An issue object of the standalone CLI. -/
structure CLIIssue where
  severity : Severity
  category : String
  title : String
  message : String
  file : Option String := none
  line : Option Nat := none
  key : Option String := none
  table : Option String := none
  context : Option String := none
deriving DecidableEq, Repr

/-- What the four scanner phases of one `runScan` call push, plus the
`.gitignore` content when the file exists. -/
structure CLIScanEnv where
  secretIssues : List CLIIssue
  rlsIssues : List CLIIssue
  sqlIssues : List CLIIssue
  apiIssues : List CLIIssue
  gitignore : Option String

/-- The `.gitignore` check of the CLI (security-watchdog.ts lines 427-437):
an existing `.gitignore` without the substring `.env` yields one warning. -/
def cliGitignoreIssues (gitignore : Option String) : List CLIIssue :=
  match gitignore with
  | none => []
  | some content =>
      if ¬ strIncludes content ".env" then
        [{ severity := .warning, category := "general"
           title := "env files not gitignored"
           message := "env files may be committed accidentally"
           file := some ".gitignore" }]
      else []

/-- The `issues` list at the end of the scan phases of `runScan`
(pushes of lines 354, 381, 418, 424, 431, in order). -/
def cliCollectIssues (env : CLIScanEnv) : List CLIIssue :=
  env.secretIssues ++ env.rlsIssues ++ env.sqlIssues ++ env.apiIssues ++
    cliGitignoreIssues env.gitignore

/-- The process exit code of a completed `runScan` (lines 442-497): an empty
issue list returns early (exit code 0 at process end); otherwise
`process.exit(1)` fires exactly when `criticalCount > 0`, and falling
through the report exits 0. -/
def cliExitCode (issues : List CLIIssue) : Nat :=
  if issues.isEmpty then 0
  else
    let criticalCount := (issues.filter fun i => decide (i.severity = Severity.critical)).length
    if criticalCount > 0 then 1 else 0

/-- One completed CLI scan: the collected issues and the exit code. -/
def cliRunScan (env : CLIScanEnv) : List CLIIssue × Nat :=
  let issues := cliCollectIssues env
  (issues, cliExitCode issues)

/-! ## Sample values used in witnesses and counterexamples -/

/-- A regex-compile oracle that accepts nothing (only used where the tests
are never consulted). -/
def noCompile : String → String → Bool := fun _ _ => false

/-- The default configuration over the trivial oracle. -/
def sampleConfig : VibeSecurityConfig := getDefaultConfig noCompile

/-- An empty scanner result. -/
def emptyScanResult : ScanResult := { issues := [], scannedAt := 0, duration := 0 }

/-- A minimal issue with a given id. -/
def sampleIssue (theId : String) : SecurityIssue :=
  { id := theId, category := .general, severity := .info, title := "t", message := "m" }

/-- A scan environment where every scanner succeeds with no issues. -/
def sampleEnv : ScanEnv :=
  { secretResult := .ok emptyScanResult, rlsResult := .ok emptyScanResult
    sqlResult := .ok emptyScanResult, apiKeyResult := .ok emptyScanResult }

/-! ## C1 — re-entrant `runFullScan` is a no-op -/

/-- C1: a `runFullScan` call made while `isScanning` is set starts no
scanner, leaves `latestIssues` and the whole orchestrator state unchanged,
logs nothing, and returns the current `latestIssues` list. -/
theorem C1_runFullScan_reentrant_noop (env : ScanEnv) (cfg : VibeSecurityConfig)
    (s : OrchestratorState) (h : s.isScanning = true) :
    runFullScanO env cfg s =
      { returned := s.latestIssues, state := s
        scannersInvoked := [], loggedError := none } := by
  simp [runFullScanO, h]

/-- C1 witness: the theorem applied at a concrete in-flight state. -/
theorem C1_witness :
    ({ latestIssues := [sampleIssue "a"], isScanning := true } : OrchestratorState).isScanning
        = true ∧
    runFullScanO sampleEnv sampleConfig
        { latestIssues := [sampleIssue "a"], isScanning := true } =
      { returned := [sampleIssue "a"]
        state := { latestIssues := [sampleIssue "a"], isScanning := true }
        scannersInvoked := [], loggedError := none } :=
  ⟨rfl, C1_runFullScan_reentrant_noop sampleEnv sampleConfig _ rfl⟩

/-! ## C2 — scanner fault versus `latestIssues`

In the source, `latestIssues = allIssues` (index.ts line 139) sits inside the
`try` block AFTER all scanner calls, so a scanner fault jumps to the `catch`
before the assignment: `latestIssues` keeps its previous (stale) value, while
the partially collected issues are only RETURNED (line 146). -/

/-- The stale issue held before the faulting run. -/
def staleIssue : SecurityIssue := sampleIssue "stale-1"

/-- The issue the secret scanner collects before the RLS fault. -/
def freshIssue : SecurityIssue := sampleIssue "fresh-1"

/-- Orchestrator state before the faulting run. -/
def faultState : OrchestratorState := { latestIssues := [staleIssue], isScanning := false }

/-- Environment in which the RLS scanner throws after the secret scanner
collected one issue. -/
def faultEnv : ScanEnv :=
  { secretResult := .ok { issues := [freshIssue], scannedAt := 0, duration := 0 }
    rlsResult := .error "unexpected rls fault"
    sqlResult := .ok emptyScanResult
    apiKeyResult := .ok emptyScanResult }

/-- C2 counterexample: with the RLS scanner throwing an unexpected fault,
the orchestrator logs the fault and returns the issues collected before it,
but `latestIssues` is NOT replaced — it still holds the stale previous list,
contradicting the claim that after every call `latestIssues` holds the
issues gathered by that run. -/
theorem C2_counterexample :
    (runFullScanO faultEnv sampleConfig faultState).loggedError
        = some "unexpected rls fault" ∧
    (runFullScanO faultEnv sampleConfig faultState).returned = [freshIssue] ∧
    (runFullScanO faultEnv sampleConfig faultState).state.latestIssues = [staleIssue] ∧
    ([staleIssue] : List SecurityIssue) ≠ [freshIssue] := by
  decide

/-- C2 amended: when a scanner throws, the orchestrator logs the fault,
clears the in-flight flag, and returns the issues collected before the
fault, but `latestIssues` keeps its previous value; only a fault-free run
replaces `latestIssues` with that run's issues. -/
theorem C2_fault_semantics (env : ScanEnv) (cfg : VibeSecurityConfig)
    (s : OrchestratorState) (h : s.isScanning = false) :
    ((runFullScanO env cfg s).state.isScanning = false) ∧
    ((runFullScanO env cfg s).loggedError ≠ none →
      (runFullScanO env cfg s).state.latestIssues = s.latestIssues) ∧
    ((runFullScanO env cfg s).loggedError = none →
      (runFullScanO env cfg s).state.latestIssues = (runFullScanO env cfg s).returned) := by
  unfold runFullScanO
  rcases hsc : scannerChain env cfg with ⟨ai, inv, fault⟩
  cases fault <;> simp [h, hsc]

/-- C2 amended witness: the amended theorem applied at the concrete faulting
environment. -/
theorem C2_fault_semantics_witness :
    ((runFullScanO faultEnv sampleConfig faultState).state.isScanning = false) ∧
    ((runFullScanO faultEnv sampleConfig faultState).loggedError ≠ none →
      (runFullScanO faultEnv sampleConfig faultState).state.latestIssues
        = faultState.latestIssues) ∧
    ((runFullScanO faultEnv sampleConfig faultState).loggedError = none →
      (runFullScanO faultEnv sampleConfig faultState).state.latestIssues
        = (runFullScanO faultEnv sampleConfig faultState).returned) :=
  C2_fault_semantics faultEnv sampleConfig faultState rfl

/-! ## C9 — determinism of repeated scans -/

/-- C9: with the whole environment (env-file tree, source tree, authority
responses, configuration) fixed, a second sequential `runFullScan` call
yields exactly the same outcome as the first; in particular the two issue
lists — and hence their sorted issue-id sets — coincide. -/
theorem C9_runFullScan_deterministic (env : ScanEnv) (cfg : VibeSecurityConfig)
    (s : OrchestratorState) (h : s.isScanning = false) :
    runFullScanO env cfg (runFullScanO env cfg s).state = runFullScanO env cfg s ∧
    ((runFullScanO env cfg (runFullScanO env cfg s).state).returned.map fun i => i.id)
      = ((runFullScanO env cfg s).returned.map fun i => i.id) := by
  unfold runFullScanO
  rcases hsc : scannerChain env cfg with ⟨ai, inv, fault⟩
  cases fault <;> simp [h, hsc]

/-- C9 witness: the theorem applied at a concrete idle state. -/
theorem C9_witness :
    runFullScanO sampleEnv sampleConfig
        (runFullScanO sampleEnv sampleConfig { latestIssues := [], isScanning := false }).state
      = runFullScanO sampleEnv sampleConfig { latestIssues := [], isScanning := false } :=
  (C9_runFullScan_deterministic sampleEnv sampleConfig
    { latestIssues := [], isScanning := false } rfl).1

/-! ## C8 — CLI exit-code contract -/

/-- C8: the CLI process exit code of a completed scan is 0 exactly when no
critical-severity issue was found, and non-zero exactly when at least one
critical issue exists. -/
theorem C8_cli_exit_code (env : CLIScanEnv) :
    ((cliRunScan env).2 = 0 ↔ ∀ i ∈ (cliRunScan env).1, i.severity ≠ Severity.critical) ∧
    ((cliRunScan env).2 ≠ 0 ↔ ∃ i ∈ (cliRunScan env).1, i.severity = Severity.critical) := by
  have hmain : (cliRunScan env).2 = 0 ↔
      ∀ i ∈ (cliRunScan env).1, i.severity ≠ Severity.critical := by
    unfold cliRunScan cliExitCode
    rcases hi : cliCollectIssues env with _ | ⟨a, l⟩
    · simp
    · simp only [List.isEmpty_cons, if_false]
      constructor
      · intro h0 i hi hcrit
        have hpos : ((a :: l).filter fun i => decide (i.severity = Severity.critical)).length = 0 := by
          by_contra hne
          simp [Nat.pos_of_ne_zero hne] at h0
        have : i ∈ (a :: l).filter fun i => decide (i.severity = Severity.critical) := by
          simp [List.mem_filter, hi, hcrit]
        rw [List.length_eq_zero] at hpos
        simp [hpos] at this
      · intro hall
        have : ((a :: l).filter fun i => decide (i.severity = Severity.critical)) = [] := by
          rw [List.filter_eq_nil_iff]
          intro i hi
          simpa using hall i hi
        simp [this]
  refine ⟨hmain, ?_⟩
  constructor
  · intro hne
    by_contra hnex
    push_neg at hnex
    exact hne (hmain.mpr hnex)
  · intro ⟨i, hi, hcrit⟩ h0
    exact (hmain.mp h0) i hi hcrit

/-- A CLI scan environment with exactly one critical issue. -/
def criticalCLIIssue : CLIIssue :=
  { severity := .critical, category := "secret-leak", title := "t", message := "m" }

/-- The environment holding only that critical issue. -/
def criticalCLIEnv : CLIScanEnv :=
  { secretIssues := [criticalCLIIssue], rlsIssues := [], sqlIssues := []
    apiIssues := [], gitignore := none }

/-- C8 witness: on a scan that found one critical issue, the exit code is
non-zero. -/
theorem C8_witness : (cliRunScan criticalCLIEnv).2 ≠ 0 :=
  (C8_cli_exit_code criticalCLIEnv).2.mpr ⟨criticalCLIIssue, by decide, rfl⟩

/-! ## C10 — secret scanner with no env files / no `.gitignore` -/

/-- Any issue produced by the per-entry loop comes from a matched rule and is
the corresponding `secret-leak` issue. -/
theorem entryIssue_eq_some {files : List EnvFile} {rel : String}
    {ps : List SensitivePattern} {now : Nat} {e : EnvEntry} {i : SecurityIssue}
    (h : entryIssue files rel ps now e = some i) :
    ∃ m, matchesSensitivePattern e.key ps = some m ∧
      i = secretIssueFor files rel e m now := by
  unfold entryIssue at h
  cases hm : matchesSensitivePattern e.key ps with
  | some m => rw [hm] at h; exact ⟨m, rfl, (Option.some.inj h).symm⟩
  | none => rw [hm] at h; cases h

/-- Issues of the per-entry loop all carry category `secret-leak`. -/
theorem mem_envLoop_category {files : List EnvFile}
    {ps : List SensitivePattern} {now : Nat} {i : SecurityIssue}
    (h : i ∈ files.flatMap fun f =>
      (parseEnvFile f.content).filterMap (entryIssue files f.path ps now)) :
    i.category = IssueCategory.secretLeak := by
  rcases List.mem_flatMap.mp h with ⟨f, _, hf⟩
  rcases List.mem_filterMap.mp hf with ⟨e, _, he⟩
  rcases entryIssue_eq_some he with ⟨m, _, rfl⟩
  rfl

/-- C10: with no file matching the `envFiles` globs, `scanSecrets` returns
an empty issue list — in particular the missing-gitignore warning is not
emitted; moreover that warning (the only `general`-category issue the
scanner can produce) is never emitted without a `.gitignore` file, and only
an existing `.gitignore` lacking a `.env` entry produces it. -/
theorem C10_scanSecrets_empty_cases :
    (∀ g ps now, scanSecretsIssues [] g ps now = []) ∧
    (∀ files ps now i, i ∈ scanSecretsIssues files none ps now →
        i.category ≠ IssueCategory.general) ∧
    (∀ files g ps now i, i ∈ scanSecretsIssues files g ps now →
        i.category = IssueCategory.general →
        ∃ c, g = some c ∧ strIncludes c ".env" = false) := by
  refine ⟨fun g ps now => rfl, ?_, ?_⟩
  · intro files ps now i hi
    unfold scanSecretsIssues at hi
    split at hi
    · cases hi
    · rcases List.mem_append.mp hi with h | h
      · rw [mem_envLoop_category h]; decide
      · simp [gitignoreIssues] at h
  · intro files g ps now i hi hcat
    unfold scanSecretsIssues at hi
    split at hi
    · cases hi
    · rcases List.mem_append.mp hi with h | h
      · rw [mem_envLoop_category h] at hcat; cases hcat
      · cases g with
        | none => simp [gitignoreIssues] at h
        | some c =>
            refine ⟨c, rfl, ?_⟩
            by_cases henv : strIncludes c ".env" = true
            · exfalso
              have hnil : gitignoreIssues (some c) = [] := by
                unfold gitignoreIssues
                simp [henv]
              rw [hnil] at h
              cases h
            · simpa using henv

/-- C10 witness: the first part of the theorem at a concrete input. -/
theorem C10_witness : scanSecretsIssues [] none [] 7 = [] :=
  C10_scanSecrets_empty_cases.1 none [] 7

/-! ## C7 — whitelisted tables never yield RLS issues -/

/-- Every issue the per-table loop emits names the looped table, which passed
the whitelist check. -/
theorem rlsTableIssues_mem {authority : Authority} {cfg : RLSScannerConfig}
    {now : Nat} {tn : String} {us : List TableUsage} {i : SecurityIssue}
    (h : i ∈ rlsTableIssues authority cfg now tn us) :
    i.table = some tn ∧ tn ∉ cfg.whitelistedTables := by
  unfold rlsTableIssues at h
  by_cases hw : tn ∈ cfg.whitelistedTables
  · rw [if_pos (by simpa using hw)] at h
    cases h
  · rw [if_neg (by simpa using hw)] at h
    refine ⟨?_, hw⟩
    rcases List.mem_append.mp h with h1 | h1 <;> split at h1 <;> cases h1 <;>
      first
        | rfl
        | (rename_i h2; cases h2)

/-- C7: a table in `whitelistedTables` never yields an RLS issue, in either
RLS scanner variant, whatever its protection state and however many
source locations reference it. -/
theorem C7_whitelist_no_issue (authority : Authority) (cfg : RLSScannerConfig)
    (files : List SourceFile) (now : Nat) (t : String)
    (ht : t ∈ cfg.whitelistedTables)
    (url : String) (wl : List String) (db : DirectDB) (hwl : t ∈ wl) :
    (∀ i ∈ (scanRLS authority cfg files now).issues, i.table ≠ some t) ∧
    (∀ i ∈ (scanRLSDirect url wl db).1, i.table ≠ some t) := by
  constructor
  · intro i hi
    unfold scanRLS at hi
    split at hi
    · cases hi
    · split at hi
      · cases hi
      · rcases List.mem_flatMap.mp hi with ⟨p, _, hp⟩
        rcases rlsTableIssues_mem hp with ⟨htab, hnc⟩
        intro hcontra
        rw [htab] at hcontra
        exact hnc (Option.some.inj hcontra ▸ ht)
  · intro i hi
    unfold scanRLSDirect at hi
    split at hi
    · rw [List.mem_singleton] at hi
      subst hi
      simp [directIssue]
    · split at hi
      · rw [List.mem_singleton] at hi
        subst hi
        simp [directIssue]
      · rcases List.mem_flatMap.mp hi with ⟨r, _, hr⟩
        by_cases hwr : r.tableName ∈ wl
        · rw [if_pos (by simpa using hwr)] at hr
          cases hr
        · have hne : r.tableName ≠ t := fun heq => hwr (heq ▸ hwl)
          rw [if_neg (by simpa using hwr)] at hr
          split at hr <;> [skip; split at hr] <;>
            (rw [List.mem_singleton] at hr; subst hr; simp [directIssue, hne])

/-- C7 witness: concrete scan where the whitelisted table `posts` is
referenced and the authority reports it unprotected — no issue names it. -/
theorem C7_witness :
    (∀ i ∈ (scanRLS (fun _ => AuthorityResponse.ok false false)
        { enabled := true, scanDirs := ["src"], extensions := [".ts"]
          excludeDirs := [], supabaseUrl := "https://x", supabaseServiceRoleKey := "k"
          whitelistedTables := ["posts"] }
        [{ path := "a.ts", content := "supabase.from(`posts`)"
           fromTables := fun ls => ls.map fun l =>
             if strIncludes l "posts" then ["posts"] else [] }] 0).issues,
      i.table ≠ some "posts") ∧
    (∀ i ∈ (scanRLSDirect "postgres://db" ["posts"]
        (DirectDB.rows [{ tableName := "posts", rlsEnabled := false, policyCount := 0 }])).1,
      i.table ≠ some "posts") :=
  C7_whitelist_no_issue (fun _ => AuthorityResponse.ok false false) _ _ 0 "posts"
    (by decide) "postgres://db" ["posts"]
    (DirectDB.rows [{ tableName := "posts", rlsEnabled := false, policyCount := 0 }])
    (by decide)

/-! ## C6 — trailing-edge debounce -/

/-- With a timer armed `debounceMs` after the previous event, a chain of
further events each strictly closer than `debounceMs` keeps re-arming the
timer, so the single fire lands `debounceMs` after the last event. -/
theorem watchLoop_pending (D : Nat) (we : WatchEnv) :
    ∀ (rest : List Nat) (t : Nat) (s : OrchestratorState),
      List.Chain (fun a b => a ≤ b ∧ b - a < D) t rest →
      watchLoop D we (some (t + D)) rest s =
        ([(rest.getLastD t + D,
           loadConfig we.compile (we.configAt (rest.getLastD t + D)))],
         (runFullScanO (we.scanEnvAt (rest.getLastD t + D))
           (loadConfig we.compile (we.configAt (rest.getLastD t + D))) s).state) := by
  intro rest
  induction rest with
  | nil =>
      intro t s _
      simp [watchLoop, timerFire, List.getLastD]
  | cons t' rest' ih =>
      intro t s hch
      cases hch with
      | cons hr hch' =>
          have hgt : ¬ (t + D ≤ t') := by omega
          rw [List.getLastD_cons]
          simpa [watchLoop, hgt] using ih t' s hch'

/-- C6: a burst of `N ≥ 1` file-change events, each less than `debounceMs`
after the previous one, triggers exactly one rescan; it fires `debounceMs`
after the last event of the burst, and that firing reloads the configuration
(at fire time) before invoking the orchestrator with the fresh config. -/
theorem C6_debounce_burst_single_rescan (D : Nat) (we : WatchEnv)
    (s : OrchestratorState) (t : Nat) (rest : List Nat)
    (hch : List.Chain (fun a b => a ≤ b ∧ b - a < D) t rest) :
    watchRun D we (t :: rest) s =
      ([(rest.getLastD t + D,
         loadConfig we.compile (we.configAt (rest.getLastD t + D)))],
       (runFullScanO (we.scanEnvAt (rest.getLastD t + D))
         (loadConfig we.compile (we.configAt (rest.getLastD t + D))) s).state) := by
  have h0 : watchRun D we (t :: rest) s = watchLoop D we (some (t + D)) rest s := rfl
  rw [h0]
  exact watchLoop_pending D we rest t s hch

/-- A sample watch environment. -/
def sampleWatchEnv : WatchEnv :=
  { compile := noCompile
    configAt := fun _ => ConfigFileState.missing
    scanEnvAt := fun _ => sampleEnv }

/-- C6 witness: a burst of three events at 0, 100, 300 under a 500 ms
debounce fires exactly once, at 800, with the config freshly loaded at
time 800. -/
theorem C6_witness :
    watchRun 500 sampleWatchEnv [0, 100, 300] { latestIssues := [], isScanning := false } =
      ([(800, loadConfig sampleWatchEnv.compile (sampleWatchEnv.configAt 800))],
       (runFullScanO (sampleWatchEnv.scanEnvAt 800)
         (loadConfig sampleWatchEnv.compile (sampleWatchEnv.configAt 800))
         { latestIssues := [], isScanning := false }).state) :=
  C6_debounce_burst_single_rescan 500 sampleWatchEnv
    { latestIssues := [], isScanning := false } 0 [100, 300]
    (List.Chain.cons (by omega) (List.Chain.cons (by omega) List.Chain.nil))

/-! ## C3 — RLS scan with an unreachable / unconfigured authority

In the source, `checkRLSStatus` converts a missing configuration AND every
failed authority interaction (the primary fetch throwing, or a non-ok
response whose direct-query fallback in turn throws, is non-ok, or returns
no row) into a status with `rlsEnabled = false` and an `error` string;
`scanRLS` then takes the `!rlsStatus.rlsEnabled` branch FOR EACH table,
emitting one CRITICAL `rls-disabled` issue per non-whitelisted table (the
failure reason only folded into the message) — not one warning issue for
the whole scan.  Only the direct-db variant emits a single issue, and only
its missing-URL case is a warning. -/

/-- A source file referencing the tables `posts` and `users`.  The oracle
states what `SUPABASE_FROM_REGEX` captures on each line. -/
def rlsCexFile : SourceFile :=
  { path := "src/a.ts"
    content := "supabase.from(`posts`).select()\nsupabase.from(`users`).select()"
    fromTables := fun ls => ls.map fun l =>
      if strIncludes l "posts" then ["posts"]
      else if strIncludes l "users" then ["users"] else [] }

/-- An enabled RLS configuration with CONFIGURED credentials, so that
`checkRLSStatus` does reach the authority call. -/
def rlsCexConfig : RLSScannerConfig :=
  { enabled := true, scanDirs := ["src"], extensions := [".ts"], excludeDirs := []
    supabaseUrl := "https://example.supabase.co"
    supabaseServiceRoleKey := "service-key", whitelistedTables := [] }

/-- An unreachable authority: every fetch to it throws. -/
def cexAuthority : Authority :=
  fun _ => AuthorityResponse.netError "fetch failed: ECONNREFUSED"

/-- C3 counterexample: credentials are configured but the authority is
unreachable (every fetch throws), and two tables are referenced.  The RLS
scanner emits TWO issues (one per table), both of severity critical and
none of severity warning, each merely carrying the network failure reason
inside its message — refuting "exactly one warning-severity issue ... not
one finding per referenced table". -/
theorem C3_counterexample :
    ((scanRLS cexAuthority rlsCexConfig [rlsCexFile] 0).issues.length = 2) ∧
    (((scanRLS cexAuthority rlsCexConfig [rlsCexFile] 0).issues.filter fun i =>
        decide (i.severity = Severity.warning)).length = 0) ∧
    (∀ i ∈ (scanRLS cexAuthority rlsCexConfig [rlsCexFile] 0).issues,
      i.severity = Severity.critical ∧
      strIncludes i.message "ECONNREFUSED" = true) := by
  decide

/-- Does an authority interaction for one table fail?  `true` exactly when
`checkRLSStatus` (with configured credentials) ends in one of its failure
branches: the primary fetch throws, or the response is non-ok and the
direct-query fallback throws, is non-ok, or returns no row. -/
def AuthorityResponse.failed : AuthorityResponse → Bool
  | .ok _ _ => false
  | .fallback (FallbackResponse.ok _ _) => false
  | .fallback _ => true
  | .netError _ => true

/-- With missing connection info, or with a failing authority interaction,
`checkRLSStatus` resolves — it never throws — to a status with
`rlsEnabled = false` that carries an error reason. -/
theorem checkRLSStatus_unavailable (authority : Authority) (t url key : String)
    (h : url = "" ∨ key = "" ∨ (authority t).failed = true) :
    (checkRLSStatus authority t url key).rlsEnabled = false ∧
    (checkRLSStatus authority t url key).error.isSome = true := by
  unfold checkRLSStatus
  by_cases hc : url = "" ∨ key = ""
  · rw [if_pos hc]
    exact ⟨rfl, rfl⟩
  · rw [if_neg hc]
    have hfail : (authority t).failed = true := by
      rcases h with h | h | h
      · exact absurd (Or.inl h) hc
      · exact absurd (Or.inr h) hc
      · exact h
    cases ha : authority t with
    | ok r p =>
        rw [ha] at hfail
        exact Bool.noConfusion hfail
    | netError m => exact ⟨rfl, rfl⟩
    | fallback r =>
        cases r with
        | ok r2 p2 =>
            rw [ha] at hfail
            exact Bool.noConfusion hfail
        | okEmpty => exact ⟨rfl, rfl⟩
        | notOk => exact ⟨rfl, rfl⟩
        | netError m => exact ⟨rfl, rfl⟩

/-- With the authority unavailable for a table (missing connection info or
a failing interaction), the per-table loop emits exactly one critical
`rls-missing` issue when the table is not whitelisted, and none when it
is. -/
theorem rlsTableIssues_unavailable (authority : Authority) (cfg : RLSScannerConfig)
    (now : Nat) (tn : String) (us : List TableUsage)
    (h : cfg.supabaseUrl = "" ∨ cfg.supabaseServiceRoleKey = "" ∨
      (authority tn).failed = true) :
    ((rlsTableIssues authority cfg now tn us).length
        = if tn ∈ cfg.whitelistedTables then 0 else 1) ∧
    ∀ i ∈ rlsTableIssues authority cfg now tn us,
      i.severity = Severity.critical ∧ i.category = IssueCategory.rlsMissing := by
  rcases checkRLSStatus_unavailable authority tn cfg.supabaseUrl
    cfg.supabaseServiceRoleKey h with ⟨hrls, _⟩
  unfold rlsTableIssues
  by_cases hw : tn ∈ cfg.whitelistedTables
  · rw [if_pos (by simpa using hw), if_pos hw]
    exact ⟨rfl, fun i hi => absurd hi (List.not_mem_nil i)⟩
  · rw [if_neg (by simpa using hw), if_neg hw]
    constructor
    · simp [hrls]
    · intro i hi
      simp only [hrls, Bool.false_eq_true, not_false_eq_true, if_true, false_and,
        if_false, List.append_nil, List.mem_singleton] at hi
      subst hi
      exact ⟨rfl, rfl⟩

/-- C3 amended: when the authority is unconfigured (missing URL or key) or
unreachable (every interaction with it fails) and the scanner is enabled:
`checkRLSStatus` converts the failure into a status with
`rlsEnabled = false` carrying an error reason and never throws; `scanRLS`
then emits exactly one CRITICAL `rls-missing` issue per non-whitelisted
table of the usage map — not a single warning issue; the direct-db variant
emits exactly one warning issue when the database URL is missing, and
exactly one critical issue when the connection fails; all embedded
scanners are total, so no error escapes the scanner boundary. -/
theorem C3_unavailable_behaviour (authority : Authority) (cfg : RLSScannerConfig)
    (files : List SourceFile) (now : Nat) (t url msg : String)
    (wl : List String) (db : DirectDB)
    (hcfg : cfg.supabaseUrl = "" ∨ cfg.supabaseServiceRoleKey = "" ∨
      ∀ tn, (authority tn).failed = true)
    (hen : cfg.enabled = true) (hurl : url ≠ "") :
    (∀ i ∈ (scanRLS authority cfg files now).issues,
        i.severity = Severity.critical ∧ i.category = IssueCategory.rlsMissing) ∧
    ((scanRLS authority cfg files now).issues.length =
      ((tableUsagesOf files).filter fun p => decide (p.1 ∉ cfg.whitelistedTables)).length) ∧
    ((checkRLSStatus authority t cfg.supabaseUrl cfg.supabaseServiceRoleKey).rlsEnabled
        = false ∧
      (checkRLSStatus authority t cfg.supabaseUrl cfg.supabaseServiceRoleKey).error.isSome
        = true) ∧
    ((scanRLSDirect "" wl db).1.length = 1 ∧
      ∀ i ∈ (scanRLSDirect "" wl db).1, i.severity = Severity.warning) ∧
    ((scanRLSDirect url wl (DirectDB.connError msg)).1.length = 1 ∧
      ∀ i ∈ (scanRLSDirect url wl (DirectDB.connError msg)).1,
        i.severity = Severity.critical) := by
  have hper : ∀ tn, cfg.supabaseUrl = "" ∨ cfg.supabaseServiceRoleKey = "" ∨
      (authority tn).failed = true := by
    rcases hcfg with h | h | h
    · exact fun tn => Or.inl h
    · exact fun tn => Or.inr (Or.inl h)
    · exact fun tn => Or.inr (Or.inr (h tn))
  refine ⟨?_, ?_,
    checkRLSStatus_unavailable authority t cfg.supabaseUrl cfg.supabaseServiceRoleKey
      (hper t), ?_, ?_⟩
  · intro i hi
    unfold scanRLS at hi
    rw [if_neg (by simp [hen])] at hi
    split at hi
    · cases hi
    · rcases List.mem_flatMap.mp hi with ⟨p, _, hp⟩
      exact (rlsTableIssues_unavailable authority cfg now p.1 p.2 (hper p.1)).2 i hp
  · unfold scanRLS
    rw [if_neg (by simp [hen])]
    split
    · rename_i hemp
      rw [List.isEmpty_iff] at hemp
      simp [hemp]
    · simp only
      induction tableUsagesOf files with
      | nil => rfl
      | cons p l ih =>
          rw [List.flatMap_cons, List.length_append, ih, List.filter_cons,
            (rlsTableIssues_unavailable authority cfg now p.1 p.2 (hper p.1)).1]
          by_cases hw : p.1 ∈ cfg.whitelistedTables
          · simp [hw]
          · simp [hw]
            omega
  · constructor
    · rfl
    · intro i hi
      rw [List.mem_singleton.mp hi]
      rfl
  · constructor
    · unfold scanRLSDirect
      rw [if_neg hurl]
      rfl
    · intro i hi
      unfold scanRLSDirect at hi
      rw [if_neg hurl] at hi
      rw [List.mem_singleton.mp hi]
      rfl

/-- C3 amended witness: the amended theorem at the concrete two-table scan
with configured credentials and an unreachable authority (every fetch
throws), so the authority path — not the missing-credentials shortcut — is
exercised. -/
theorem C3_unavailable_witness :
    (∀ i ∈ (scanRLS cexAuthority rlsCexConfig [rlsCexFile] 0).issues,
      i.severity = Severity.critical ∧ i.category = IssueCategory.rlsMissing) ∧
    ((scanRLS cexAuthority rlsCexConfig [rlsCexFile] 0).issues.length =
      ((tableUsagesOf [rlsCexFile]).filter fun p =>
        decide (p.1 ∉ rlsCexConfig.whitelistedTables)).length) ∧
    ((checkRLSStatus cexAuthority "posts"
        rlsCexConfig.supabaseUrl rlsCexConfig.supabaseServiceRoleKey).rlsEnabled
          = false ∧
      (checkRLSStatus cexAuthority "posts"
        rlsCexConfig.supabaseUrl rlsCexConfig.supabaseServiceRoleKey).error.isSome
          = true) ∧
    ((scanRLSDirect "" ["posts"] (DirectDB.rows [])).1.length = 1 ∧
      ∀ i ∈ (scanRLSDirect "" ["posts"] (DirectDB.rows [])).1,
        i.severity = Severity.warning) ∧
    ((scanRLSDirect "postgres://db" ["posts"] (DirectDB.connError "down")).1.length = 1 ∧
      ∀ i ∈ (scanRLSDirect "postgres://db" ["posts"] (DirectDB.connError "down")).1,
        i.severity = Severity.critical) :=
  C3_unavailable_behaviour cexAuthority rlsCexConfig [rlsCexFile] 0 "posts"
    "postgres://db" "down" ["posts"] (DirectDB.rows [])
    (Or.inr (Or.inr fun tn => rfl)) rfl (by decide)

/-! ## C4 — secret scanner exactness per entry -/

/-- A successful parse of line `idx` records line number `idx + 1`. -/
theorem parseEnvLine_line {idx : Nat} {l : String} {e : EnvEntry}
    (h : parseEnvLine idx l = some e) : e.line = idx + 1 := by
  unfold parseEnvLine at h
  split at h
  · cases h
  · split at h
    · cases h
    · rw [← Option.some.inj h]

/-- Entries parsed from index `i` on have line numbers above `i`. -/
theorem parseEnvLines_mem_line {ls : List String} :
    ∀ {i : Nat} {e : EnvEntry}, e ∈ parseEnvLines i ls → i < e.line := by
  induction ls with
  | nil => intro i e h; cases h
  | cons l rest ih =>
      intro i e h
      unfold parseEnvLines at h
      cases hp : parseEnvLine i l with
      | some e0 =>
          rw [hp] at h
          cases h with
          | head => rw [parseEnvLine_line hp]; omega
          | tail _ h2 => have := ih h2; omega
      | none =>
          rw [hp] at h
          have := ih h
          omega

/-- The parsed entries of a file sit on pairwise distinct lines. -/
theorem parseEnvLines_pairwise {ls : List String} :
    ∀ {i : Nat}, (parseEnvLines i ls).Pairwise fun a b => a.line ≠ b.line := by
  induction ls with
  | nil => intro i; exact List.Pairwise.nil
  | cons l rest ih =>
      intro i
      unfold parseEnvLines
      cases hp : parseEnvLine i l with
      | none => exact ih
      | some e0 =>
          refine List.Pairwise.cons ?_ ih
          intro e' he'
          have h1 := parseEnvLine_line hp
          have h2 := parseEnvLines_mem_line he'
          omega

/-- Pairwise distinct lines make the line number identify the entry. -/
theorem pairwise_line_inj {L : List EnvEntry}
    (hpw : L.Pairwise fun a b => a.line ≠ b.line) :
    ∀ e ∈ L, ∀ e' ∈ L, e.line = e'.line → e = e' := by
  induction L with
  | nil => intro e he; cases he
  | cons a L ih =>
      rcases List.pairwise_cons.mp hpw with ⟨ha, hL⟩
      intro e he e' he' hline
      cases he with
      | head =>
          cases he' with
          | head => rfl
          | tail _ h2 => exact absurd hline (ha e' h2)
      | tail _ h2 =>
          cases he' with
          | head => exact absurd hline.symm (ha e h2)
          | tail _ h2' => exact ih hL e h2 e' h2' hline

/-- The secret-leak-at-a-location predicate the C4 statement counts with. -/
def atLoc (fpath : String) (n : Nat) (i : SecurityIssue) : Bool :=
  decide (i.category = IssueCategory.secretLeak) &&
    decide (i.file = some fpath) && decide (i.line = some n)

/-- Entries of a file with a different relative path never land at the
queried location. -/
theorem filter_perFile_wrongFile {files : List EnvFile} {rel : String}
    {ps : List SensitivePattern} {now : Nat} {L : List EnvEntry}
    {fpath : String} {n : Nat} (hne : rel ≠ fpath) :
    (L.filterMap (entryIssue files rel ps now)).filter (atLoc fpath n) = [] := by
  rw [List.filter_eq_nil_iff]
  intro i hi
  rcases List.mem_filterMap.mp hi with ⟨e', _, heq⟩
  rcases entryIssue_eq_some heq with ⟨m', _, rfl⟩
  simp [atLoc, secretIssueFor, hne]

/-- If no entry of `L` sits on line `n`, nothing lands at `(rel, n)`. -/
theorem filter_perFile_offLine {files : List EnvFile} {rel : String}
    {ps : List SensitivePattern} {now : Nat} {L : List EnvEntry} {n : Nat}
    (h : ∀ e' ∈ L, e'.line ≠ n) :
    (L.filterMap (entryIssue files rel ps now)).filter (atLoc rel n) = [] := by
  rw [List.filter_eq_nil_iff]
  intro i hi
  rcases List.mem_filterMap.mp hi with ⟨e', he', heq⟩
  rcases entryIssue_eq_some heq with ⟨m', _, rfl⟩
  simp [atLoc, secretIssueFor, h e' he']

/-- The `.gitignore` warning never lands at a secret-leak location. -/
theorem filter_gitignore_atLoc {g : Option String} {fpath : String} {n : Nat} :
    (gitignoreIssues g).filter (atLoc fpath n) = [] := by
  cases g with
  | none => rfl
  | some c =>
      unfold gitignoreIssues
      split <;> (try split) <;> simp [atLoc]

/-- Within one file whose entries sit on pairwise distinct lines, a matched
entry contributes exactly its one issue at its location. -/
theorem filterMap_filter_single {files : List EnvFile} {rel : String}
    {ps : List SensitivePattern} {now : Nat} {m : SensitivePattern} :
    ∀ {L : List EnvEntry} {e : EnvEntry},
      L.Pairwise (fun a b => a.line ≠ b.line) →
      e ∈ L → matchesSensitivePattern e.key ps = some m →
      (L.filterMap (entryIssue files rel ps now)).filter (atLoc rel e.line)
        = [secretIssueFor files rel e m now] := by
  intro L
  induction L with
  | nil => intro e _ he; cases he
  | cons a L ih =>
      intro e hpw he hm
      rcases List.pairwise_cons.mp hpw with ⟨ha, hL⟩
      cases he with
      | head =>
          have hsome : entryIssue files rel ps now a
              = some (secretIssueFor files rel a m now) := by
            unfold entryIssue
            rw [hm]
          rw [List.filterMap_cons, hsome, List.filter_cons,
            if_pos (by simp [atLoc, secretIssueFor])]
          have hoff : ∀ e' ∈ L, e'.line ≠ a.line := fun e' he' hl => ha e' he' hl.symm
          rw [filter_perFile_offLine hoff]
      | tail _ he' =>
          have hne : a.line ≠ e.line := ha e he'
          cases ha2 : entryIssue files rel ps now a with
          | none =>
              rw [List.filterMap_cons, ha2]
              exact ih hL he' hm
          | some ia =>
              rcases entryIssue_eq_some ha2 with ⟨ma, _, rfl⟩
              rw [List.filterMap_cons, ha2, List.filter_cons,
                if_neg (by simp [atLoc, secretIssueFor, hne])]
              exact ih hL he' hm

/-- Files whose relative path differs from the queried one contribute no
issue at the queried location. -/
theorem filter_flatMap_other {files : List EnvFile} {ps : List SensitivePattern}
    {now : Nat} {fpath : String} {n : Nat} :
    ∀ (L : List EnvFile), (∀ f' ∈ L, f'.path ≠ fpath) →
      ((L.flatMap fun f' =>
        (parseEnvFile f'.content).filterMap (entryIssue files f'.path ps now)).filter
          (atLoc fpath n)) = [] := by
  intro L
  induction L with
  | nil => intro _; rfl
  | cons a L ih =>
      intro h
      rw [List.flatMap_cons, List.filter_append,
        filter_perFile_wrongFile (h a (List.mem_cons_self _ _)),
        ih fun f' hf' => h f' (List.mem_cons_of_mem _ hf')]
      rfl

/-- Under path uniqueness, the issues at a location of file `f` come from
`f`'s own entries alone. -/
theorem filter_flatMap_reduce {files : List EnvFile} {ps : List SensitivePattern}
    {now : Nat} {f : EnvFile} {n : Nat} :
    ∀ (L : List EnvFile), (L.map fun x => x.path).Nodup → f ∈ L →
      ((L.flatMap fun f' =>
        (parseEnvFile f'.content).filterMap (entryIssue files f'.path ps now)).filter
          (atLoc f.path n))
        = ((parseEnvFile f.content).filterMap (entryIssue files f.path ps now)).filter
            (atLoc f.path n) := by
  intro L
  induction L with
  | nil => intro _ hf; cases hf
  | cons a L ih =>
      intro hnd hf
      rw [List.map_cons, List.nodup_cons] at hnd
      rcases hnd with ⟨hnotin, hndL⟩
      rw [List.flatMap_cons, List.filter_append]
      cases hf with
      | head =>
          have hother : ∀ f' ∈ L, f'.path ≠ f.path := by
            intro f' hf' heq
            exact hnotin (heq ▸ List.mem_map_of_mem _ hf')
          rw [filter_flatMap_other L hother, List.append_nil]
      | tail _ hf' =>
          have hne : a.path ≠ f.path := by
            intro heq
            exact hnotin (heq ▸ List.mem_map_of_mem _ hf')
          rw [filter_perFile_wrongFile hne, List.nil_append]
          exact ih hndL hf'

/-- A key without the client-exposed marker never matches. -/
theorem matchesSensitivePattern_noMarker {key : String}
    {ps : List SensitivePattern} (h : strStartsWith key "NEXT_PUBLIC_" = false) :
    matchesSensitivePattern key ps = none := by
  unfold matchesSensitivePattern
  rw [if_pos (by simp [h])]

/-- A matched entry's own file contributes nothing at its line when the
entry itself produces no issue. -/
theorem filter_perFile_noIssueAtLine {files : List EnvFile} {rel : String}
    {ps : List SensitivePattern} {now : Nat} {L : List EnvEntry} {e : EnvEntry}
    (hpw : L.Pairwise fun a b => a.line ≠ b.line) (he : e ∈ L)
    (hnone : entryIssue files rel ps now e = none) :
    (L.filterMap (entryIssue files rel ps now)).filter (atLoc rel e.line) = [] := by
  rw [List.filter_eq_nil_iff]
  intro i hi
  rcases List.mem_filterMap.mp hi with ⟨e', he', heq⟩
  by_cases hl : e'.line = e.line
  · have he'e : e' = e := pairwise_line_inj hpw e' he' e he hl
    rw [he'e, hnone] at heq
    cases heq
  · rcases entryIssue_eq_some heq with ⟨m', _, rfl⟩
    simp [atLoc, secretIssueFor, hl]

/-- C4: for every parsed entry of a scanned env file (paths unique), if the
key carries the `NEXT_PUBLIC_` marker and the original or stripped key
matches a sensitive rule, exactly one secret-leak issue is produced at that
(file, line) — with the matched rule's severity and the entry's key — and
an entry whose key lacks the marker produces no secret-leak issue at its
location regardless of the rule table. -/
theorem C4_secret_exactness (files : List EnvFile) (g : Option String)
    (ps : List SensitivePattern) (now : Nat) (f : EnvFile) (e : EnvEntry)
    (hnd : (files.map fun x => x.path).Nodup)
    (hf : f ∈ files) (he : e ∈ parseEnvFile f.content) :
    (∀ m, matchesSensitivePattern e.key ps = some m →
        (scanSecretsIssues files g ps now).filter (atLoc f.path e.line)
            = [secretIssueFor files f.path e m now] ∧
        (secretIssueFor files f.path e m now).severity = m.severity ∧
        (secretIssueFor files f.path e m now).key = some e.key ∧
        (secretIssueFor files f.path e m now).file = some f.path ∧
        (secretIssueFor files f.path e m now).line = some e.line) ∧
    (strStartsWith e.key "NEXT_PUBLIC_" = false →
        (scanSecretsIssues files g ps now).filter (atLoc f.path e.line) = []) := by
  have hne : files.isEmpty = false := by
    cases files
    · cases hf
    · rfl
  have hred : (scanSecretsIssues files g ps now).filter (atLoc f.path e.line)
      = ((parseEnvFile f.content).filterMap (entryIssue files f.path ps now)).filter
          (atLoc f.path e.line) := by
    unfold scanSecretsIssues
    rw [if_neg (by simp [hne]), List.filter_append, filter_gitignore_atLoc,
      List.append_nil]
    exact filter_flatMap_reduce files hnd hf
  constructor
  · intro m hm
    refine ⟨?_, rfl, rfl, rfl, rfl⟩
    rw [hred]
    exact filterMap_filter_single parseEnvLines_pairwise he hm
  · intro hmark
    rw [hred]
    refine filter_perFile_noIssueAtLine parseEnvLines_pairwise he ?_
    unfold entryIssue
    rw [matchesSensitivePattern_noMarker hmark]

/-- The compile oracle of the C4 witness: on the concrete (all-uppercase)
strings involved, `new RegExp(p, 'i').test(s)` is exactly a substring
search for `p` in `s`. -/
def witnessCompile : String → String → Bool := fun p s => strIncludes s p

/-- The second default sensitive rule, compiled with the witness oracle. -/
def dbPattern : SensitivePattern :=
  ⟨"DATABASE_URL", witnessCompile "DATABASE_URL", .critical,
    "database URL must not be exposed"⟩

/-- The witness env file: `NEXT_PUBLIC_DATABASE_URL=postgres://x`. -/
def witnessEnvFile : EnvFile :=
  { path := ".env.local", content := "NEXT_PUBLIC_DATABASE_URL=postgres://x" }

/-- C4 witness: the scenario of the spec — a file defining
`NEXT_PUBLIC_DATABASE_URL` yields exactly one critical secret-leak issue at
`.env.local:1` with that key. -/
theorem C4_witness :
    (scanSecretsIssues [witnessEnvFile] none
        (getDefaultConfig witnessCompile).secretScanner.sensitivePatterns 0).filter
      (atLoc ".env.local" 1)
      = [secretIssueFor [witnessEnvFile] ".env.local"
          ⟨"NEXT_PUBLIC_DATABASE_URL", "postgres://x", 1⟩ dbPattern 0] :=
  ((C4_secret_exactness [witnessEnvFile] none
      (getDefaultConfig witnessCompile).secretScanner.sensitivePatterns 0
      witnessEnvFile ⟨"NEXT_PUBLIC_DATABASE_URL", "postgres://x", 1⟩
      (by decide) (by decide) (by decide)).1 dbPattern rfl).1

/-! ## C5 — SQL-injection per-triple exactness

The whole-file pass deduplicates by LOCATION (`file` + `line`), not by the
composite (pattern, file, line) key: a full-text match whose start line
already carries any issue — even one of a different pattern — is dropped
(part_001 line 162).  A multi-line construct can match a pattern in the
whole-file pass only; when its start line already has another pattern's
issue, that (pattern, file, line) triple yields zero issues.

The concrete file below was checked against the actual regexes (ECMAScript
semantics, confirmed with an independent regex engine):
line 1 `const a = ⧵`SELECT x FROM t WHERE y=$\x7bv\x7d⧵` , b = "DROP TABLE z"`,
line 2 `+ y;`.
* `raw-sql-template-literal` matches line 1 by itself (per-line pass) and
  matches the full content once at index 10 (line 1);
* `raw-sql-string-concat` matches NO single line (the `+ y` sits on the next
  line) but matches the full content once at index 47 — the `"` before
  `DROP` — i.e. starting on line 1;
* the other four patterns (rpc/filter/search) match nothing. -/

/-- Line 1 of the counterexample file. -/
def cexLine1 : String :=
  "const a = `SELECT x FROM t WHERE y=$\x7bv\x7d` , b = \"DROP TABLE z\""

/-- Line 2 of the counterexample file. -/
def cexLine2 : String := "+ y;"

/-- The counterexample file content. -/
def cexContent : String := cexLine1 ++ "\n" ++ cexLine2

/-- The behaviour of the six anti-pattern regexes on the counterexample
content (see the section comment for the hand-check). -/
def cexOracle : RegexOracle :=
  { lineTest := fun pid line =>
      pid = "raw-sql-template-literal" && line = cexLine1
    fullMatchIndices := fun pid content =>
      if content = cexContent then
        if pid = "raw-sql-template-literal" then [10]
        else if pid = "raw-sql-string-concat" then [47]
        else []
      else [] }

/-- C5 counterexample: the triple (`raw-sql-string-concat`, file, line 1)
matches (one whole-file match starting on line 1), yet the scan yields NO
issue for it — only the single `raw-sql-template-literal` issue survives at
that location.  A line matched by two distinct anti-patterns thus yields one
issue, not two, refuting "each distinct (anti-pattern id, file, line) triple
that matches yields exactly one issue ... never zero". -/
theorem C5_counterexample :
    ((cexOracle.fullMatchIndices "raw-sql-string-concat" cexContent).length = 1) ∧
    (lineNumberAt cexContent 47 = 1) ∧
    (scanFileForSQLInjection (sqlInjectionPatterns cexOracle) "src/q.ts" cexContent 0
      = [sqliIssue (perLineId "raw-sql-template-literal" "src/q.ts" 1)
          "raw-sql-template-literal" "src/q.ts" 1 0]) ∧
    ((scanFileForSQLInjection (sqlInjectionPatterns cexOracle) "src/q.ts" cexContent 0).filter
        fun i => strIncludes i.id "raw-sql-string-concat").length = 0 := by
  decide

/-- Two issues sit at the same (file, line) location. -/
def sameLoc (a b : SecurityIssue) : Prop := a.file = b.file ∧ a.line = b.line

/-- Location equality is symmetric. -/
theorem sameLoc_symm {a b : SecurityIssue} (h : sameLoc a b) : sameLoc b a :=
  ⟨h.1.symm, h.2.symm⟩

/-- `out` extends `init` only by issues whose locations are fresh — distinct
from every earlier issue's location and pairwise distinct. -/
def FreshExt (init out : List SecurityIssue) : Prop :=
  ∃ ext, out = init ++ ext ∧ (∀ m ∈ ext, ∀ j ∈ init, ¬ sameLoc m j) ∧
    ext.Pairwise fun a b => ¬ sameLoc a b

/-- Reflexivity of `FreshExt`. -/
theorem freshExt_refl (l : List SecurityIssue) : FreshExt l l :=
  ⟨[], by simp, by simp, List.Pairwise.nil⟩

/-- Transitivity of `FreshExt`. -/
theorem freshExt_trans {a b c : List SecurityIssue}
    (h1 : FreshExt a b) (h2 : FreshExt b c) : FreshExt a c := by
  rcases h1 with ⟨e1, rfl, hf1, hp1⟩
  rcases h2 with ⟨e2, rfl, hf2, hp2⟩
  refine ⟨e1 ++ e2, by rw [List.append_assoc], ?_, ?_⟩
  · intro m hm j hj
    rcases List.mem_append.mp hm with hm1 | hm2
    · exact hf1 m hm1 j hj
    · exact hf2 m hm2 j (List.mem_append_left _ hj)
  · rw [List.pairwise_append]
    refine ⟨hp1, hp2, ?_⟩
    intro x hx y hy hxy
    exact hf2 y hy x (List.mem_append_right _ hx) (sameLoc_symm hxy)

/-- Folding a step that always yields a fresh extension yields a fresh
extension. -/
theorem foldl_freshExt {α : Type} (step : List SecurityIssue → α → List SecurityIssue)
    (hstep : ∀ acc a, FreshExt acc (step acc a)) :
    ∀ (l : List α) (acc : List SecurityIssue), FreshExt acc (l.foldl step acc) := by
  intro l
  induction l with
  | nil => intro acc; exact freshExt_refl acc
  | cons a l ih =>
      intro acc
      rw [List.foldl_cons]
      exact freshExt_trans (hstep acc a) (ih (step acc a))

/-- Appending one location-fresh issue is a fresh extension. -/
theorem freshExt_append_single {acc : List SecurityIssue} {x : SecurityIssue}
    (h : ∀ j ∈ acc, ¬ sameLoc x j) : FreshExt acc (acc ++ [x]) :=
  ⟨[x], rfl,
   fun m hm j hj => by rw [List.mem_singleton.mp hm]; exact h j hj,
   List.pairwise_singleton _ _⟩

/-- Each whole-file-pass step extends the list only at fresh locations
(the `(file, line)` guard of part_001 line 162). -/
theorem multiPassPattern_freshExt (rel content : String) (now : Nat)
    (acc : List SecurityIssue) (p : SQLPattern) :
    FreshExt acc (multiPassPattern rel content now acc p) := by
  unfold multiPassPattern
  refine foldl_freshExt _ ?_ _ acc
  intro acc' idx
  split
  · rename_i hguard
    apply freshExt_append_single
    intro j hj hloc
    rcases hloc with ⟨hfile, hline⟩
    exact hguard.2 (List.any_eq_true.mpr ⟨j, hj, by
      rw [decide_eq_true_eq]
      exact ⟨hfile.symm, hline.symm⟩⟩)
  · exact freshExt_refl acc'

/-- The whole-file pass only appends issues at fresh locations on top of the
per-line pass. -/
theorem scanFile_freshExt (patterns : List SQLPattern) (rel content : String)
    (now : Nat) :
    FreshExt (linePass patterns rel now (splitLines content))
      (scanFileForSQLInjection patterns rel content now) :=
  foldl_freshExt _ (multiPassPattern_freshExt rel content now) patterns _

/-- Folding preserves an invariant preserved by each step. -/
theorem foldl_preserve {α β : Type} {step : β → α → β} {P : β → Prop}
    (hstep : ∀ b a, P b → P (step b a)) :
    ∀ (l : List α) (b : β), P b → P (l.foldl step b) := by
  intro l
  induction l with
  | nil => intro b hb; exact hb
  | cons a l ih => intro b hb; exact ih _ (hstep b a hb)

/-- Appending an issue whose id the duplicate guard rejected keeps ids
pairwise distinct. -/
theorem nodup_ids_append_single {acc : List SecurityIssue} {x : SecurityIssue}
    (hnd : (acc.map fun i => i.id).Nodup)
    (hx : ¬ (acc.any fun i => i.id = x.id) = true) :
    ((acc ++ [x]).map fun i => i.id).Nodup := by
  rw [List.map_append]
  rw [List.nodup_append]
  refine ⟨hnd, List.nodup_singleton _, ?_⟩
  intro y hy hz
  rcases List.mem_map.mp hy with ⟨i, hi, rfl⟩
  rw [List.map_singleton, List.mem_singleton] at hz
  exact hx (List.any_eq_true.mpr ⟨i, hi, by rw [decide_eq_true_eq]; exact hz⟩)

/-- The per-line pass step keeps issue ids pairwise distinct. -/
theorem linePassPattern_nodup {rel : String} {now n : Nat} {lineContent : String}
    {acc : List SecurityIssue} {p : SQLPattern}
    (hnd : (acc.map fun i => i.id).Nodup) :
    ((linePassPattern rel now n lineContent acc p).map fun i => i.id).Nodup := by
  unfold linePassPattern
  split
  · split
    · exact hnd
    · rename_i hguard
      exact nodup_ids_append_single hnd hguard
  · exact hnd

/-- The whole-file pass keeps issue ids pairwise distinct. -/
theorem multiPassPattern_nodup {rel content : String} {now : Nat}
    {acc : List SecurityIssue} {p : SQLPattern}
    (hnd : (acc.map fun i => i.id).Nodup) :
    ((multiPassPattern rel content now acc p).map fun i => i.id).Nodup := by
  unfold multiPassPattern
  refine @foldl_preserve _ _ _ (fun (b : List SecurityIssue) => (b.map fun i => i.id).Nodup) ?_ _ acc hnd
  intro acc' idx h
  split
  · rename_i hguard
    exact nodup_ids_append_single h hguard.1
  · exact h

/-- The ids of a whole per-file scan are pairwise distinct. -/
theorem scanFile_nodup_ids (patterns : List SQLPattern) (rel content : String)
    (now : Nat) :
    ((scanFileForSQLInjection patterns rel content now).map fun i => i.id).Nodup := by
  unfold scanFileForSQLInjection
  refine @foldl_preserve _ _ _ (fun (b : List SecurityIssue) => (b.map fun i => i.id).Nodup)
    (fun acc p h => multiPassPattern_nodup h) patterns _ ?_
  unfold linePass
  refine @foldl_preserve _ _ _ (fun (b : List SecurityIssue) => (b.map fun i => i.id).Nodup)
    ?_ ((splitLines content).enum) [] (by simp)
  intro acc pr h
  exact @foldl_preserve _ _ _ (fun (b : List SecurityIssue) => (b.map fun i => i.id).Nodup)
    (fun acc' q h' => linePassPattern_nodup h') patterns acc h

/-- A fold of append-only steps only appends. -/
theorem foldl_appendOnly {α : Type} (step : List SecurityIssue → α → List SecurityIssue)
    (hstep : ∀ acc a, ∃ ext, step acc a = acc ++ ext) :
    ∀ (l : List α) (acc : List SecurityIssue), ∃ ext, l.foldl step acc = acc ++ ext := by
  intro l
  induction l with
  | nil => intro acc; exact ⟨[], by simp⟩
  | cons a l ih =>
      intro acc
      rcases hstep acc a with ⟨e1, he1⟩
      rcases ih (step acc a) with ⟨e2, he2⟩
      exact ⟨e1 ++ e2, by rw [List.foldl_cons, he2, he1, List.append_assoc]⟩

/-- Ids present before a fold of append-only steps are still present after. -/
theorem mem_ids_foldl {α : Type} (step : List SecurityIssue → α → List SecurityIssue)
    (hstep : ∀ acc a, ∃ ext, step acc a = acc ++ ext)
    (l : List α) (acc : List SecurityIssue) (x : String)
    (hx : x ∈ acc.map fun i => i.id) :
    x ∈ (l.foldl step acc).map fun i => i.id := by
  rcases foldl_appendOnly step hstep l acc with ⟨ext, heq⟩
  rw [heq, List.map_append]
  exact List.mem_append_left _ hx

/-- The per-line step only appends. -/
theorem linePassPattern_appendOnly (rel : String) (now n : Nat) (lineContent : String)
    (acc : List SecurityIssue) (p : SQLPattern) :
    ∃ ext, linePassPattern rel now n lineContent acc p = acc ++ ext := by
  unfold linePassPattern
  split
  · split
    · exact ⟨[], by simp⟩
    · exact ⟨_, rfl⟩
  · exact ⟨[], by simp⟩

/-- The whole-file step only appends. -/
theorem multiPassPattern_appendOnly (rel content : String) (now : Nat)
    (acc : List SecurityIssue) (p : SQLPattern) :
    ∃ ext, multiPassPattern rel content now acc p = acc ++ ext := by
  unfold multiPassPattern
  refine foldl_appendOnly _ ?_ _ acc
  intro acc' idx
  split
  · exact ⟨_, rfl⟩
  · exact ⟨[], by simp⟩

/-- After its own step on a matching line, the pattern's per-line id is
present. -/
theorem linePassPattern_mem_id (rel : String) (now n : Nat) (lineContent : String)
    (acc : List SecurityIssue) (p : SQLPattern)
    (h : p.lineTest lineContent = true) :
    perLineId p.id rel n ∈
      (linePassPattern rel now n lineContent acc p).map fun i => i.id := by
  unfold linePassPattern
  rw [if_pos h]
  split
  · rename_i hany
    rw [List.any_eq_true] at hany
    rcases hany with ⟨i, hi, hid⟩
    rw [decide_eq_true_eq] at hid
    exact hid ▸ List.mem_map_of_mem _ hi
  · rw [List.map_append]
    refine List.mem_append_right _ ?_
    simp [sqliIssue]

/-- After the inner fold over the pattern table, every matching pattern's
per-line id is present. -/
theorem foldl_patterns_mem_id (rel : String) (now n : Nat) (lineContent : String) :
    ∀ (ps : List SQLPattern) (acc : List SecurityIssue) (p : SQLPattern),
      p ∈ ps → p.lineTest lineContent = true →
      perLineId p.id rel n ∈
        ((ps.foldl (linePassPattern rel now n lineContent) acc).map fun i => i.id) := by
  intro ps
  induction ps with
  | nil => intro acc p hp; cases hp
  | cons q qs ih =>
      intro acc p hp hmatch
      rw [List.foldl_cons]
      cases hp with
      | head =>
          exact mem_ids_foldl _ (linePassPattern_appendOnly rel now n lineContent) qs _ _
            (linePassPattern_mem_id rel now n lineContent acc q hmatch)
      | tail _ hp' =>
          exact ih (linePassPattern rel now n lineContent acc q) p hp' hmatch

/-- After the per-line pass, every (pattern, line) per-line match has its id
present. -/
theorem linePass_mem_id (patterns : List SQLPattern) (rel : String) (now : Nat) :
    ∀ (L : List (Nat × String)) (acc : List SecurityIssue) (p : SQLPattern)
      (k : Nat) (ln : String), p ∈ patterns → (k, ln) ∈ L →
      p.lineTest ln = true →
      perLineId p.id rel (k + 1) ∈
        ((L.foldl (fun acc' pr =>
            patterns.foldl (linePassPattern rel now (pr.1 + 1) pr.2) acc') acc).map
          fun i => i.id) := by
  intro L
  induction L with
  | nil => intro acc p k ln _ hk; cases hk
  | cons pr L ih =>
      intro acc p k ln hp hk hmatch
      rw [List.foldl_cons]
      cases hk with
      | head =>
          refine mem_ids_foldl _ ?_ L _ _
            (foldl_patterns_mem_id rel now (k + 1) ln patterns acc p hp hmatch)
          intro acc' pr'
          exact foldl_appendOnly _
            (linePassPattern_appendOnly rel now (pr'.1 + 1) pr'.2) patterns acc'
      | tail _ hk' =>
          exact ih _ p k ln hp hk' hmatch

/-- With pairwise distinct ids, a present id is carried by exactly one
issue. -/
theorem count_eq_one_of_nodup_mem :
    ∀ {l : List SecurityIssue} {x : String},
      ((l.map fun i => i.id).Nodup) → x ∈ (l.map fun i => i.id) →
      (l.filter fun i => decide (i.id = x)).length = 1 := by
  intro l
  induction l with
  | nil => intro x _ hx; cases hx
  | cons a l ih =>
      intro x hnd hx
      rw [List.map_cons, List.nodup_cons] at hnd
      rcases hnd with ⟨hnotin, hndl⟩
      rw [List.map_cons] at hx
      rw [List.filter_cons]
      cases hx with
      | head =>
          rw [if_pos (by simp)]
          have hzero : (l.filter fun i => decide (i.id = a.id)).length = 0 := by
            rw [List.length_eq_zero, List.filter_eq_nil_iff]
            intro i hi hdec
            rw [decide_eq_true_eq] at hdec
            exact hnotin (hdec ▸ List.mem_map_of_mem _ hi)
          rw [List.length_cons, hzero]
      | tail _ hx' =>
          have hne : a.id ≠ x := fun heq => hnotin (heq ▸ hx')
          rw [if_neg (by simp [hne])]
          exact ih hndl hx'

/-- C5 amended: within one file, all issue ids are pairwise distinct; every
(pattern, line) pair whose regex matches that single line yields exactly one
issue carrying the per-line id of that pair; and the whole-file pass only
appends issues at (file, line) locations distinct from every other issue's
location — so a whole-file-only match at an already-reported location yields
no additional issue (first reporting pattern wins), while the per-line and
whole-file passes never both report the same location. -/
theorem C5_sqlInjection_amended (patterns : List SQLPattern) (rel content : String)
    (now : Nat) :
    (((scanFileForSQLInjection patterns rel content now).map fun i => i.id).Nodup) ∧
    (∀ p ∈ patterns, ∀ k ln, (k, ln) ∈ (splitLines content).enum →
      p.lineTest ln = true →
      ((scanFileForSQLInjection patterns rel content now).filter fun i =>
        decide (i.id = perLineId p.id rel (k + 1))).length = 1) ∧
    FreshExt (linePass patterns rel now (splitLines content))
      (scanFileForSQLInjection patterns rel content now) := by
  refine ⟨scanFile_nodup_ids patterns rel content now, ?_,
    scanFile_freshExt patterns rel content now⟩
  intro p hp k ln hk hmatch
  refine count_eq_one_of_nodup_mem (scanFile_nodup_ids patterns rel content now) ?_
  unfold scanFileForSQLInjection
  refine mem_ids_foldl _ (multiPassPattern_appendOnly rel content now) patterns _ _ ?_
  unfold linePass
  exact linePass_mem_id patterns rel now (splitLines content).enum [] p k ln hp hk hmatch

/-- C5 amended witness: the amended theorem at the counterexample scan — the
`raw-sql-template-literal` per-line match on line 1 yields exactly one
issue with its per-line id. -/
theorem C5_amended_witness :
    ((scanFileForSQLInjection (sqlInjectionPatterns cexOracle) "src/q.ts" cexContent 0).filter
      fun i =>
        decide (i.id = perLineId "raw-sql-template-literal" "src/q.ts" 1)).length = 1 :=
  (C5_sqlInjection_amended (sqlInjectionPatterns cexOracle) "src/q.ts" cexContent 0).2.1
    ⟨"raw-sql-template-literal", cexOracle.lineTest "raw-sql-template-literal",
      cexOracle.fullMatchIndices "raw-sql-template-literal"⟩
    (List.Mem.tail _ (List.Mem.tail _ (List.Mem.head _)))
    0 cexLine1 (by decide) (by decide)

end VibeSec
